import Mathlib

/-!
Verification of the stargate credential store against its design document.

The repository ships the abstract key/value contract (`auth.KV`, `auth.Record`,
`auth.KeyHash` in the `auth` package) and the HTTP layer's tests
(`auth/httpauth/resources_test.go`).  The concrete in-memory store backend,
the credential codec (`Generate`/`Seal`/`Open`), the database orchestration
layer and the HTTP resource layer implementation are part of the repository
but their files are not present here; following the design document they are
modelled from the spec, with each such definition marked `Modelled from the
spec:` in its doc comment.  Machine bytes are modelled as `Nat` and byte
sequences as `List Nat`.
-/

deriving instance DecidableEq for Except

namespace Stargate

/-- Byte sequence of a string: one code point per entry.  Models the `[]byte`
conversion of a Go string (the exact byte width is irrelevant to the claims;
only injectivity and invertibility matter). -/
def strToBytes (s : String) : List Nat :=
  s.data.map Char.toNat

/-- Inverse of `strToBytes`. -/
def bytesToStr (l : List Nat) : String :=
  String.mk (l.map Char.ofNat)

/-- The `Record` type of the `auth` package: the durable representation of one issued
credential (`SatelliteAddress`, `MacaroonHead`, `EncryptedSecretKey`,
`EncryptedAccessGrant`, `Public`). -/
structure Record where
  satelliteAddress : String
  macaroonHead : List Nat
  encryptedSecretKey : List Nat
  encryptedAccessGrant : List Nat
  public : Bool
deriving DecidableEq

/-- The `KeyHash` type of the `auth` package: the 32-byte key of the key/value
store, modelled as a byte sequence. -/
abbrev KeyHash := List Nat

/-- The error kinds of the design document §7: `Conflict`, `NotFound`,
`Invalid` (carrying the stored reason), `DecryptFailure`, `Unauthorized`,
`BadRequest`.  Distinct constructors make the kinds distinguishable. -/
inductive ErrKind where
  | conflict
  | notFound
  | invalid (reason : String)
  | decryptFailure
  | unauthorized
  | badRequest
deriving DecidableEq

/-- One stored cell of the in-memory backend: the record plus the soft-delete
state (`none` = live, `some reason` = invalidated with that reason). -/
structure Entry where
  record : Record
  invalidReason : Option String
deriving DecidableEq

/-- Modelled from the spec: the reference in-memory store backend
(`memauth.New()`, whose file is absent from src); a keyed collection of
entries, modelled as an association list. -/
structure Store where
  entries : List (KeyHash × Entry)
deriving DecidableEq

/-- First entry bound to a key in an association list. -/
def findEntry : List (KeyHash × Entry) → KeyHash → Option Entry
  | [], _ => none
  | (k, e) :: rest, kh => if k = kh then some e else findEntry rest kh

/-- The empty store. -/
def Store.empty : Store := ⟨[]⟩

/-- Modelled from the spec: `Put(key, record)` of the store contract (§4.1;
the backend implementing the `KV` interface is absent from src).  Fails with
`Conflict` if the key already exists, otherwise persists the record as a live
entry. -/
def Store.put (st : Store) (kh : KeyHash) (r : Record) : Except ErrKind Store :=
  match findEntry st.entries kh with
  | some _ => .error .conflict
  | none => .ok ⟨(kh, ⟨r, none⟩) :: st.entries⟩

/-- Modelled from the spec: `Get(key)` of the store contract (§4.1).  Returns
`.ok none` when the key is absent (not an error), the record when live, and
an `Invalid` error carrying the stored reason — and no record — when the
entry has been invalidated. -/
def Store.get (st : Store) (kh : KeyHash) : Except ErrKind (Option Record) :=
  match findEntry st.entries kh with
  | none => .ok none
  | some e =>
    match e.invalidReason with
    | some reason => .error (.invalid reason)
    | none => .ok (some e.record)

/-- Modelled from the spec: `Delete(key)` of the store contract (§4.1).
Always succeeds; removes every binding of the key. -/
def Store.delete (st : Store) (kh : KeyHash) : Store :=
  ⟨st.entries.filter (fun p => decide (p.1 ≠ kh))⟩

/-- First-reason-wins update of one entry. -/
def Entry.invalidate (e : Entry) (reason : String) : Entry :=
  match e.invalidReason with
  | some _ => e
  | none => { e with invalidReason := some reason }

/-- Modelled from the spec: `Invalidate(key, reason)` of the store contract
(§4.1).  Always succeeds; marks a live entry invalid with the reason, keeps
the first reason if already invalid, and is a no-op on an absent key. -/
def Store.invalidate (st : Store) (kh : KeyHash) (reason : String) : Store :=
  ⟨st.entries.map (fun p => if p.1 = kh then (p.1, p.2.invalidate reason) else p)⟩

/-- Well-formedness of a store: no key is bound twice, so at most one live
record exists per key. -/
def Store.wf (st : Store) : Prop :=
  (st.entries.map Prod.fst).Nodup

instance (st : Store) : Decidable st.wf := by
  unfold Store.wf
  infer_instance

/-- Modelled from the spec: the one-way derivation of symmetric key material
from the secret (§4.2 `Generate`; the credential codec file is absent from
src).  One-wayness is a cryptographic property outside the model; the claims
rely only on the derivation being a function of the secret and distinct for
distinct secrets, so it is modelled as the identity. -/
def deriveKey (secret : Nat) : Nat := secret

/-- Modelled from the spec: ideal authenticated symmetric encryption used by
the codec for the two ciphertext fields (§4.2).  The leading element stands
for the authentication tag binding the ciphertext to the key; the body is the
key-masked plaintext.  Confidentiality is outside the model; the claims rely
on round-tripping under the sealing key and failure under any other key. -/
def encrypt (key : Nat) (plaintext : String) : List Nat :=
  key :: (strToBytes plaintext).map (fun b => b + key)

/-- Modelled from the spec: authenticated decryption, inverse of `encrypt`;
returns `none` when the tag does not match the key. -/
def decrypt (key : Nat) (c : List Nat) : Option String :=
  match c with
  | [] => none
  | tag :: body =>
    if tag = key then some (bytesToStr (body.map (fun b => b - key))) else none

/-- Modelled from the spec: the public access-key id derived from the secret
(§4.2 `Generate`); a URL-safe injective encoding of the secret from which the
server can recover the decryption material.  The concrete base encoding is
absent from src; it is modelled as a leading marker character followed by a
unary digit string, which preserves what the claims rely on: injectivity,
URL-safety (no `/`), nonemptiness, and decodability. -/
def akidChars : Nat → List Char
  | 0 => []
  | n + 1 => 'a' :: akidChars n

/-- The access-key id of a secret. -/
def akidOf (secret : Nat) : String :=
  String.mk ('k' :: akidChars secret)

/-- Decodes a unary digit string. -/
def akidCount : List Char → Option Nat
  | [] => some 0
  | c :: rest => if c = 'a' then (akidCount rest).map (· + 1) else none

/-- Modelled from the spec: recovery of the secret from an access-key id,
inverse of `akidOf`; `none` on a malformed id. -/
def secretOf (id : String) : Option Nat :=
  match id.data with
  | [] => none
  | c :: rest => if c = 'k' then akidCount rest else none

/-- Modelled from the spec: the `KeyHash` derived deterministically from the
access-key id (§3); irreversibility is outside the model. -/
def keyHashOf (id : String) : KeyHash :=
  strToBytes id

/-- Modelled from the spec: `Seal(secret, plaintextGrant)` of the credential
codec (§4.2): encrypts the grant and the freshly generated secret-key string
with key material derived from the secret, producing the Record's two
ciphertext fields.  The satellite address and macaroon head are extracted
from the grant by an external parser that is out of scope (§1 non-goals);
they are modelled as empty. -/
def sealRecord (secret : Nat) (grant secretKey : String) (public : Bool) : Record :=
  { satelliteAddress := ""
    macaroonHead := []
    encryptedSecretKey := encrypt (deriveKey secret) secretKey
    encryptedAccessGrant := encrypt (deriveKey secret) grant
    public := public }

/-- Modelled from the spec: `Open(secret, record)` of the credential codec
(§4.2), inverse of `Seal`: decrypts the two ciphertext fields, failing with
`DecryptFailure` when the secret does not match the key material that sealed
the record. -/
def openRecord (secret : Nat) (r : Record) : Except ErrKind (String × String) :=
  match decrypt (deriveKey secret) r.encryptedAccessGrant,
        decrypt (deriveKey secret) r.encryptedSecretKey with
  | some g, some sk => .ok (g, sk)
  | _, _ => .error .decryptFailure

/-- HTTP methods appearing in the routes and their tests. -/
inductive Method where
  | GET
  | POST
  | PUT
  | DELETE
  | PATCH
deriving DecidableEq

/-- A request body, already JSON-decoded: the create body
`{"access_grant": ..., "public": ...}`, the invalidate body
`{"reason": ...}`, an empty body, or one that fails to decode (§6). -/
inductive Body where
  | empty
  | createReq (accessGrant : String) (public : Bool)
  | invalidateReq (reason : String)
  | malformed
deriving DecidableEq

/-- An HTTP request as seen by the resource layer: method, raw path, the
optional `Authorization` header value, and the decoded body. -/
structure Request where
  method : Method
  path : String
  authz : Option String
  body : Body
deriving DecidableEq

/-- The dispatch outcome of the router: one of the four handled routes (with
the path id where present), or an unmatched path / unsupported method. -/
inductive RouteResult where
  | create
  | fetch (id : String)
  | invalidateAccess (id : String)
  | deleteAccess (id : String)
  | pathNotFound
  | methodNotAllowed
deriving DecidableEq

/-- Splits a character list at every `/`, accumulating the current segment in
reverse; mirrors splitting an URL path into its slash-separated segments. -/
def splitSlashAux : List Char → List Char → List String
  | [], acc => [String.mk acc.reverse]
  | c :: rest, acc =>
    if c = '/' then String.mk acc.reverse :: splitSlashAux rest []
    else splitSlashAux rest (c :: acc)

/-- The slash-separated segments of a path. -/
def splitPath (p : String) : List String :=
  splitSlashAux p.data []

/-- Modelled from the spec: exact-match routing over the path segments (§4.4;
the resource layer file is absent from src, its tests are in
`resources_test.go`).  Only the four literal routes are honored — no
trailing slash, no sub-path suffix, no near-miss segment; a matched path
with an unsupported method is a method mismatch, anything else is
unmatched. -/
def routeSegments (m : Method) (l : List String) : RouteResult :=
  match l with
  | [s0, s1, s2] =>
    if s0 = "" ∧ s1 = "v1" ∧ s2 = "access" then
      match m with
      | .POST => .create
      | _ => .methodNotAllowed
    else .pathNotFound
  | [s0, s1, s2, id] =>
    if s0 = "" ∧ s1 = "v1" ∧ s2 = "access" ∧ id ≠ "" then
      match m with
      | .GET => .fetch id
      | .DELETE => .deleteAccess id
      | _ => .methodNotAllowed
    else .pathNotFound
  | [s0, s1, s2, id, s4] =>
    if s0 = "" ∧ s1 = "v1" ∧ s2 = "access" ∧ id ≠ "" ∧ s4 = "invalid" then
      match m with
      | .PUT => .invalidateAccess id
      | _ => .methodNotAllowed
    else .pathNotFound
  | _ => .pathNotFound

/-- Routing of a raw request path. -/
def route (m : Method) (p : String) : RouteResult :=
  routeSegments m (splitPath p)

/-- A JSON response body (§6): the create response, the fetch response (whose
`secret_key` field is present only when the record is not public), the empty
object of invalidate/delete, or an error body. -/
inductive Resp where
  | createResp (accessKeyId secretKey endpoint : String)
  | fetchResp (accessGrant : String) (secretKey : Option String) (public : Bool)
  | emptyObj
  | errBody
deriving DecidableEq

/-- The observable outcome of serving one request: status code, response
body, and the database state afterwards (`none` models a resource layer
constructed with a nil database). -/
structure HttpResult where
  status : Nat
  body : Resp
  db : Option Store
deriving DecidableEq

/-- Modelled from the spec: the bearer-token check (§4.4, §6): the
`Authorization` header must equal `Bearer <admin-token>` exactly. -/
def requireAuth (authToken : String) (authz : Option String) : Bool :=
  authz = some ("Bearer " ++ authToken)

/-- Modelled from the spec: the database orchestration of a fetch (§4.3,
§6 collaborator contract): load by the key hash of the id, then decode with
the key material recovered from the id; `NotFound`, `Invalid` and
`DecryptFailure` remain three distinct rejection reasons. -/
def fetchAccess (st : Store) (id : String) : Except ErrKind (String × Option String × Bool) :=
  match st.get (keyHashOf id) with
  | .error e => .error e
  | .ok none => .error .notFound
  | .ok (some r) =>
    match secretOf id with
    | none => .error .decryptFailure
    | some secret =>
      match openRecord secret r with
      | .error e => .error e
      | .ok (g, sk) => .ok (g, if r.public then none else some sk, r.public)

/-- Modelled from the spec: the HTTP resource layer (§4.4; `New(db, endpoint,
authToken)` and its `ServeHTTP`, whose file is absent from src).  Routing is
decided first (404/405), then the bearer token for the three protected
routes (401 with no state change), then the database is consulted (500 on a
nil database), then the handler runs.  `secretEnt` and `skEnt` stand for the
fresh entropy consumed by `Generate` on create: the secret and the generated
secret-key string.  Failures of a fetch are collapsed to 401 at the HTTP
boundary (§7 oracle note); a conflicting create surfaces as a server
fault (500). -/
def serveHTTP (endpoint authToken : String) (db : Option Store) (req : Request)
    (secretEnt : Nat) (skEnt : String) : HttpResult :=
  match route req.method req.path with
  | .pathNotFound => ⟨404, .errBody, db⟩
  | .methodNotAllowed => ⟨405, .errBody, db⟩
  | .create =>
    match db with
    | none => ⟨500, .errBody, none⟩
    | some st =>
      match req.body with
      | .createReq grant public =>
        let akid := akidOf secretEnt
        match st.put (keyHashOf akid) (sealRecord secretEnt grant skEnt public) with
        | .error _ => ⟨500, .errBody, some st⟩
        | .ok st' => ⟨200, .createResp akid skEnt endpoint, some st'⟩
      | _ => ⟨400, .errBody, some st⟩
  | .fetch id =>
    if requireAuth authToken req.authz then
      match db with
      | none => ⟨500, .errBody, none⟩
      | some st =>
        match fetchAccess st id with
        | .error _ => ⟨401, .errBody, some st⟩
        | .ok (g, sk, pub) => ⟨200, .fetchResp g sk pub, some st⟩
    else ⟨401, .errBody, db⟩
  | .invalidateAccess id =>
    if requireAuth authToken req.authz then
      match db with
      | none => ⟨500, .errBody, none⟩
      | some st =>
        match req.body with
        | .invalidateReq reason => ⟨200, .emptyObj, some (st.invalidate (keyHashOf id) reason)⟩
        | _ => ⟨400, .errBody, some st⟩
    else ⟨401, .errBody, db⟩
  | .deleteAccess id =>
    if requireAuth authToken req.authz then
      match db with
      | none => ⟨500, .errBody, none⟩
      | some st => ⟨200, .emptyObj, some (st.delete (keyHashOf id))⟩
    else ⟨401, .errBody, db⟩

/-! ### Store lemmas -/

theorem findEntry_eq_none_iff (l : List (KeyHash × Entry)) (kh : KeyHash) :
    findEntry l kh = none ↔ kh ∉ l.map Prod.fst := by
  induction l with
  | nil => simp [findEntry]
  | cons p rest ih =>
    obtain ⟨k, e⟩ := p
    simp only [findEntry, List.map_cons, List.mem_cons, not_or]
    by_cases h : k = kh
    · subst h
      simp
    · rw [if_neg h, ih]
      constructor
      · intro hn
        exact ⟨fun hc => h hc.symm, hn⟩
      · intro hn
        exact hn.2

theorem wf_put (st : Store) (kh : KeyHash) (r : Record)
    (hwf : st.wf) (h : findEntry st.entries kh = none) :
    Store.wf ⟨(kh, ⟨r, none⟩) :: st.entries⟩ := by
  have hm := (findEntry_eq_none_iff st.entries kh).mp h
  unfold Store.wf at *
  simp only [List.map_cons]
  exact List.nodup_cons.mpr ⟨hm, hwf⟩

theorem wf_delete (st : Store) (kh : KeyHash) (hwf : st.wf) : (st.delete kh).wf := by
  unfold Store.wf Store.delete at *
  exact List.Nodup.sublist (List.Sublist.map Prod.fst (List.filter_sublist st.entries)) hwf

theorem keys_invalidate (st : Store) (kh : KeyHash) (reason : String) :
    (st.invalidate kh reason).entries.map Prod.fst = st.entries.map Prod.fst := by
  unfold Store.invalidate
  simp only [List.map_map]
  apply List.map_congr_left
  intro p _
  by_cases h : p.1 = kh <;> simp [h]

theorem wf_invalidate (st : Store) (kh : KeyHash) (reason : String) (hwf : st.wf) :
    (st.invalidate kh reason).wf := by
  unfold Store.wf at *
  rw [keys_invalidate]
  exact hwf

theorem findEntry_invalidate (l : List (KeyHash × Entry)) (kh kh' : KeyHash) (reason : String) :
    findEntry (l.map (fun p => if p.1 = kh then (p.1, p.2.invalidate reason) else p)) kh'
      = (findEntry l kh').map (fun e => if kh' = kh then e.invalidate reason else e) := by
  induction l with
  | nil => simp [findEntry]
  | cons p rest ih =>
    obtain ⟨k, e⟩ := p
    simp only [List.map_cons]
    by_cases hk : k = kh
    · rw [if_pos hk]
      by_cases hk' : k = kh'
      · subst hk'
        simp [findEntry, hk]
      · simp only [findEntry, if_neg hk']
        exact ih
    · rw [if_neg hk]
      by_cases hk' : k = kh'
      · subst hk'
        simp [findEntry, hk]
      · simp only [findEntry, if_neg hk']
        exact ih

theorem map_invalidate_of_not_mem (l : List (KeyHash × Entry)) (kh : KeyHash) (reason : String)
    (h : kh ∉ l.map Prod.fst) :
    l.map (fun p => if p.1 = kh then (p.1, p.2.invalidate reason) else p) = l := by
  induction l with
  | nil => rfl
  | cons p rest ih =>
    simp only [List.map_cons, List.mem_cons, not_or] at h
    have h1 : p.1 ≠ kh := fun h' => h.1 (Eq.symm h')
    rw [List.map_cons, if_neg h1, ih h.2]

theorem invalidate_absent (st : Store) (kh : KeyHash) (reason : String)
    (h : findEntry st.entries kh = none) : st.invalidate kh reason = st := by
  obtain ⟨l⟩ := st
  unfold Store.invalidate
  simp only [Store.mk.injEq]
  exact map_invalidate_of_not_mem l kh reason ((findEntry_eq_none_iff l kh).mp h)

theorem filter_ne_of_not_mem (l : List (KeyHash × Entry)) (kh : KeyHash)
    (h : kh ∉ l.map Prod.fst) :
    l.filter (fun p => decide (p.1 ≠ kh)) = l := by
  induction l with
  | nil => rfl
  | cons p rest ih =>
    simp only [List.map_cons, List.mem_cons, not_or] at h
    have h1 : p.1 ≠ kh := fun h' => h.1 (Eq.symm h')
    rw [List.filter_cons_of_pos (by simpa using h1), ih h.2]

theorem delete_absent (st : Store) (kh : KeyHash)
    (h : findEntry st.entries kh = none) : st.delete kh = st := by
  obtain ⟨l⟩ := st
  unfold Store.delete
  simp only [Store.mk.injEq]
  exact filter_ne_of_not_mem l kh ((findEntry_eq_none_iff l kh).mp h)

theorem delete_delete (st : Store) (kh : KeyHash) :
    (st.delete kh).delete kh = st.delete kh := by
  obtain ⟨l⟩ := st
  unfold Store.delete
  simp [List.filter_filter]

theorem findEntry_delete (st : Store) (kh : KeyHash) :
    findEntry (st.delete kh).entries kh = none := by
  rw [findEntry_eq_none_iff]
  intro hmem
  obtain ⟨p, hp, hfst⟩ := List.mem_map.mp hmem
  have := (List.mem_filter.mp hp).2
  simp only [decide_eq_true_eq] at this
  exact this hfst

theorem put_conflict (st : Store) (kh : KeyHash) (r : Record)
    (h : findEntry st.entries kh ≠ none) : st.put kh r = .error .conflict := by
  unfold Store.put
  cases hc : findEntry st.entries kh with
  | none => exact absurd hc h
  | some e => rfl

theorem put_ok (st : Store) (kh : KeyHash) (r : Record)
    (h : findEntry st.entries kh = none) :
    st.put kh r = .ok ⟨(kh, ⟨r, none⟩) :: st.entries⟩ := by
  unfold Store.put
  rw [h]

theorem get_after_put_self (st : Store) (kh : KeyHash) (r : Record) :
    (Store.mk ((kh, ⟨r, none⟩) :: st.entries)).get kh = .ok (some r) := by
  unfold Store.get
  simp [findEntry]

theorem get_after_put_other (st : Store) (kh kh' : KeyHash) (r : Record) (h : kh' ≠ kh) :
    (Store.mk ((kh, ⟨r, none⟩) :: st.entries)).get kh' = st.get kh' := by
  unfold Store.get
  have : ¬kh = kh' := fun hh => h hh.symm
  simp [findEntry, this]

theorem findEntry_invalidate_self (st : Store) (kh : KeyHash) (reason : String) :
    findEntry (st.invalidate kh reason).entries kh
      = (findEntry st.entries kh).map (fun e => e.invalidate reason) := by
  unfold Store.invalidate
  rw [findEntry_invalidate]
  simp

/-! ### Claims about the store contract -/

/-- C4: at most one live record exists per key: `Put` fails with `Conflict`
exactly when the key already exists, otherwise persists the record in one
step (the new store is the old one plus the new live binding, the new key
reads back, and no other key's read changes), and the no-duplicate-key
invariant is preserved by `Put`, `Invalidate` and `Delete`. -/
theorem claim_C4_put_conflict_uniqueness (st : Store) (kh : KeyHash) (r : Record)
    (hwf : st.wf) :
    (findEntry st.entries kh ≠ none → st.put kh r = .error .conflict) ∧
    (findEntry st.entries kh = none →
      st.put kh r = .ok ⟨(kh, ⟨r, none⟩) :: st.entries⟩ ∧
      Store.wf ⟨(kh, ⟨r, none⟩) :: st.entries⟩ ∧
      (Store.mk ((kh, ⟨r, none⟩) :: st.entries)).get kh = .ok (some r) ∧
      ∀ kh', kh' ≠ kh → (Store.mk ((kh, ⟨r, none⟩) :: st.entries)).get kh' = st.get kh') ∧
    (∀ reason, (st.invalidate kh reason).wf) ∧
    (st.delete kh).wf := by
  refine ⟨fun h => put_conflict st kh r h, fun h => ?_,
    fun reason => wf_invalidate st kh reason hwf, wf_delete st kh hwf⟩
  exact ⟨put_ok st kh r h, wf_put st kh r hwf h, get_after_put_self st kh r,
    fun kh' h' => get_after_put_other st kh kh' r h'⟩

/-- Witness for C4 at a concrete store. -/
theorem claim_C4_witness :
    (Store.mk [([1], ⟨⟨"sat", [], [], [], false⟩, none⟩)]).put [1] ⟨"s2", [], [], [], true⟩
        = .error .conflict ∧
    (Store.mk [([1], ⟨⟨"sat", [], [], [], false⟩, none⟩)]).put [2] ⟨"s2", [], [], [], true⟩
        = .ok ⟨[([2], ⟨⟨"s2", [], [], [], true⟩, none⟩), ([1], ⟨⟨"sat", [], [], [], false⟩, none⟩)]⟩ := by
  have h1 := (claim_C4_put_conflict_uniqueness
    ⟨[([1], ⟨⟨"sat", [], [], [], false⟩, none⟩)]⟩ [1] ⟨"s2", [], [], [], true⟩ (by decide)).1
    (by decide)
  have h2 := ((claim_C4_put_conflict_uniqueness
    ⟨[([1], ⟨⟨"sat", [], [], [], false⟩, none⟩)]⟩ [2] ⟨"s2", [], [], [], true⟩ (by decide)).2.1
    (by decide)).1
  exact ⟨h1, h2⟩

/-- C5: `Get` returns the stored record when the key is live, a not-found
result that is not an error (`.ok none`) when absent, and when invalidated
an error carrying the stored reason and no record. -/
theorem claim_C5_get_result_cases (st : Store) (kh : KeyHash) (r : Record) (reason : String) :
    (findEntry st.entries kh = none → st.get kh = .ok none) ∧
    (findEntry st.entries kh = some ⟨r, none⟩ → st.get kh = .ok (some r)) ∧
    (findEntry st.entries kh = some ⟨r, some reason⟩ → st.get kh = .error (.invalid reason)) := by
  refine ⟨fun h => ?_, fun h => ?_, fun h => ?_⟩ <;>
    · unfold Store.get
      rw [h]

/-- Witness for C5 at concrete stores. -/
theorem claim_C5_witness :
    (Store.mk []).get [1] = .ok none ∧
    (Store.mk [([1], ⟨⟨"sat", [], [], [], false⟩, none⟩)]).get [1]
      = .ok (some ⟨"sat", [], [], [], false⟩) ∧
    (Store.mk [([1], ⟨⟨"sat", [], [], [], false⟩, some "why"⟩)]).get [1]
      = .error (.invalid "why") := by
  refine ⟨(claim_C5_get_result_cases ⟨[]⟩ [1] ⟨"sat", [], [], [], false⟩ "why").1 (by decide),
    (claim_C5_get_result_cases ⟨[([1], ⟨⟨"sat", [], [], [], false⟩, none⟩)]⟩ [1]
      ⟨"sat", [], [], [], false⟩ "why").2.1 (by decide),
    (claim_C5_get_result_cases ⟨[([1], ⟨⟨"sat", [], [], [], false⟩, some "why"⟩)]⟩ [1]
      ⟨"sat", [], [], [], false⟩ "why").2.2 (by decide)⟩

/-- C6: invalidation is monotonic with first-reason-wins: invalidating a live
key with reason `a` and then with reason `b` leaves the stored reason `a`,
and a subsequent `Get` fails with `Invalid` carrying `a`; invalidating an
absent key is a no-op success. -/
theorem claim_C6_invalidate_first_reason_wins (st : Store) (kh : KeyHash) (r : Record)
    (a b : String) :
    (findEntry st.entries kh = some ⟨r, none⟩ →
      findEntry ((st.invalidate kh a).invalidate kh b).entries kh = some ⟨r, some a⟩ ∧
      ((st.invalidate kh a).invalidate kh b).get kh = .error (.invalid a)) ∧
    (findEntry st.entries kh = none → st.invalidate kh a = st) := by
  constructor
  · intro h
    have h1 : findEntry (st.invalidate kh a).entries kh = some ⟨r, some a⟩ := by
      rw [findEntry_invalidate_self, h]
      simp [Entry.invalidate]
    have h2 : findEntry ((st.invalidate kh a).invalidate kh b).entries kh = some ⟨r, some a⟩ := by
      rw [findEntry_invalidate_self, h1]
      simp [Entry.invalidate]
    refine ⟨h2, ?_⟩
    unfold Store.get
    rw [h2]
  · intro h
    exact invalidate_absent st kh a h

/-- Witness for C6 at a concrete store. -/
theorem claim_C6_witness :
    (((Store.mk [([1], ⟨⟨"sat", [], [], [], false⟩, none⟩)]).invalidate [1] "a").invalidate
        [1] "b").get [1] = .error (.invalid "a") ∧
    (Store.mk []).invalidate [7] "a" = ⟨[]⟩ := by
  exact ⟨((claim_C6_invalidate_first_reason_wins ⟨[([1], ⟨⟨"sat", [], [], [], false⟩, none⟩)]⟩
      [1] ⟨"sat", [], [], [], false⟩ "a" "b").1 (by decide)).2,
    (claim_C6_invalidate_first_reason_wins ⟨[]⟩ [7] ⟨"sat", [], [], [], false⟩ "a" "b").2
      (by decide)⟩

/-! ### Codec lemmas -/

theorem bytesToStr_strToBytes (s : String) : bytesToStr (strToBytes s) = s := by
  unfold bytesToStr strToBytes
  rw [List.map_map]
  have hmap : s.data.map (Char.ofNat ∘ Char.toNat) = s.data := by
    simp [Function.comp_def, Char.ofNat_toNat]
  rw [hmap]

theorem decrypt_encrypt (k : Nat) (m : String) : decrypt k (encrypt k m) = some m := by
  show (if k = k then
      some (bytesToStr (((strToBytes m).map (fun b => b + k)).map (fun b => b - k)))
    else none) = some m
  rw [if_pos rfl, List.map_map]
  have hmap : (strToBytes m).map ((fun b => b - k) ∘ fun b => b + k) = strToBytes m := by
    simp [Function.comp_def]
  rw [hmap, bytesToStr_strToBytes]

theorem decrypt_encrypt_ne (k k' : Nat) (m : String) (h : k' ≠ k) :
    decrypt k' (encrypt k m) = none := by
  show (if k = k' then
      some (bytesToStr (((strToBytes m).map (fun b => b + k)).map (fun b => b - k')))
    else none) = none
  rw [if_neg (fun hh => h hh.symm)]

theorem openRecord_sealRecord (secret : Nat) (grant secretKey : String) (public : Bool) :
    openRecord secret (sealRecord secret grant secretKey public) = .ok (grant, secretKey) := by
  unfold openRecord sealRecord
  simp only [decrypt_encrypt]

theorem openRecord_sealRecord_ne (s s' : Nat) (grant secretKey : String) (public : Bool)
    (h : s' ≠ s) :
    openRecord s' (sealRecord s grant secretKey public) = .error .decryptFailure := by
  unfold openRecord sealRecord
  have hd : deriveKey s' ≠ deriveKey s := h
  simp only [decrypt_encrypt_ne _ _ _ hd]

/-! ### Claims about the credential codec -/

/-- C1: for every secret, grant string, generated secret-key value and public
flag, `Open(secret, Seal(secret, grant))` reproduces the original grant and
the generated secret key exactly. -/
theorem claim_C1_seal_open_roundtrip (secret : Nat) (grant secretKey : String) (public : Bool) :
    openRecord secret (sealRecord secret grant secretKey public) = .ok (grant, secretKey) :=
  openRecord_sealRecord secret grant secretKey public

/-- C2: opening a record sealed with secret `s` using any other secret fails
with `DecryptFailure` and never yields plaintext, and that failure is
distinguishable from the not-found result and from the invalidated error. -/
theorem claim_C2_wrong_secret_decrypt_failure (s s' : Nat) (grant secretKey : String)
    (public : Bool) (h : s' ≠ s) :
    openRecord s' (sealRecord s grant secretKey public) = .error .decryptFailure ∧
    ErrKind.decryptFailure ≠ ErrKind.notFound ∧
    ∀ reason, ErrKind.decryptFailure ≠ ErrKind.invalid reason := by
  refine ⟨openRecord_sealRecord_ne s s' grant secretKey public h, by decide, fun reason => ?_⟩
  intro hc
  cases hc

/-- Witness for C2 at concrete secrets. -/
theorem claim_C2_witness :
    openRecord 6 (sealRecord 5 "grant" "sk" false) = .error .decryptFailure := by
  exact (claim_C2_wrong_secret_decrypt_failure 5 6 "grant" "sk" false (by decide)).1

/-! ### Access-key id lemmas -/

theorem akidCount_akidChars (n : Nat) : akidCount (akidChars n) = some n := by
  induction n with
  | zero => rfl
  | succ n ih => simp [akidChars, akidCount, ih]

theorem akidOf_data (n : Nat) : (akidOf n).data = 'k' :: akidChars n := rfl

theorem secretOf_akidOf (n : Nat) : secretOf (akidOf n) = some n := by
  unfold secretOf
  rw [akidOf_data]
  simp [akidCount_akidChars]

theorem mem_akidChars (n : Nat) (c : Char) (h : c ∈ akidChars n) : c = 'a' := by
  induction n with
  | zero => cases h
  | succ n ih =>
    rcases List.mem_cons.mp h with h | h
    · exact h
    · exact ih h

theorem slash_not_mem_akidOf (n : Nat) : '/' ∉ (akidOf n).data := by
  rw [akidOf_data]
  intro h
  rcases List.mem_cons.mp h with h | h
  · exact absurd h (by decide)
  · have := mem_akidChars n _ h
    exact absurd this (by decide)

theorem akidOf_ne_empty (n : Nat) : akidOf n ≠ "" := by
  intro h
  have hd := congrArg String.data h
  rw [akidOf_data] at hd
  cases hd

/-! ### Path-splitting lemmas -/

theorem splitSlashAux_slash (rest : List Char) (acc : List Char) :
    splitSlashAux ('/' :: rest) acc = String.mk acc.reverse :: splitSlashAux rest [] := by
  simp [splitSlashAux]

theorem splitSlashAux_char (c : Char) (rest : List Char) (acc : List Char) (h : ¬c = '/') :
    splitSlashAux (c :: rest) acc = splitSlashAux rest (c :: acc) := by
  simp [splitSlashAux, h]

theorem splitSlashAux_no_slash (xs : List Char) (h : '/' ∉ xs) :
    ∀ acc, splitSlashAux xs acc = [String.mk (acc.reverse ++ xs)] := by
  induction xs with
  | nil => intro acc; simp [splitSlashAux]
  | cons c rest ih =>
    intro acc
    simp only [List.mem_cons, not_or] at h
    have hc : ¬c = '/' := fun hh => h.1 hh.symm
    rw [splitSlashAux_char c rest acc hc, ih h.2]
    simp

theorem splitSlashAux_first_slash (xs ys : List Char) (h : '/' ∉ xs) :
    ∀ acc, splitSlashAux (xs ++ '/' :: ys) acc
      = String.mk (acc.reverse ++ xs) :: splitSlashAux ys [] := by
  induction xs with
  | nil => intro acc; simp [splitSlashAux]
  | cons c rest ih =>
    intro acc
    simp only [List.mem_cons, not_or] at h
    have hc : ¬c = '/' := fun hh => h.1 hh.symm
    rw [List.cons_append, splitSlashAux_char c (rest ++ '/' :: ys) acc hc, ih h.2]
    simp

theorem splitSlashAux_trailing (xs : List Char) :
    ∀ acc, splitSlashAux (xs ++ ['/']) acc = splitSlashAux xs acc ++ [""] := by
  induction xs with
  | nil => intro acc; simp [splitSlashAux]
  | cons c rest ih =>
    intro acc
    by_cases hc : c = '/'
    · subst hc
      rw [List.cons_append, splitSlashAux_slash, splitSlashAux_slash, ih]
      simp
    · rw [List.cons_append, splitSlashAux_char c (rest ++ ['/']) acc hc,
        splitSlashAux_char c rest acc hc, ih]

theorem splitPath_trailing (p : String) :
    splitPath (p ++ "/") = splitPath p ++ [""] := by
  unfold splitPath
  rw [String.data_append]
  exact splitSlashAux_trailing p.data []

/-! ### Routing and HTTP-layer lemmas -/

theorem routeSegments_id_GET (id : String) (h2 : id ≠ "") :
    routeSegments .GET ["", "v1", "access", id] = .fetch id := by
  simp only [routeSegments]
  rw [if_pos (by simp [h2])]

theorem routeSegments_id_other (m : Method) (id : String) (h2 : id ≠ "")
    (hg : m ≠ .GET) (hd : m ≠ .DELETE) :
    routeSegments m ["", "v1", "access", id] = .methodNotAllowed := by
  simp only [routeSegments]
  rw [if_pos (by simp [h2])]

theorem routeSegments_last_empty (m : Method) (l : List String) :
    routeSegments m (l ++ [""]) = .pathNotFound := by
  match l with
  | [] => rfl
  | [a] => rfl
  | [a, b] =>
    simp only [List.cons_append, List.nil_append, routeSegments]
    rw [if_neg (show ¬(a = "" ∧ b = "v1" ∧ ("" : String) = "access") from
      fun hc => absurd hc.2.2 (by decide))]
  | [a, b, c] =>
    simp only [List.cons_append, List.nil_append, routeSegments]
    rw [if_neg (show ¬(a = "" ∧ b = "v1" ∧ c = "access" ∧ ("" : String) ≠ "") from
      fun hc => hc.2.2.2 rfl)]
  | [a, b, c, d] =>
    simp only [List.cons_append, List.nil_append, routeSegments]
    rw [if_neg (show ¬(a = "" ∧ b = "v1" ∧ c = "access" ∧ d ≠ "" ∧ ("" : String) = "invalid") from
      fun hc => absurd hc.2.2.2.2 (by decide))]
  | a :: b :: c :: d :: e :: rest =>
    cases rest with
    | nil => rfl
    | cons f rs => rfl

theorem serveHTTP_404_iff (ep tok : String) (db : Option Store) (req : Request)
    (e : Nat) (sk : String) :
    (serveHTTP ep tok db req e sk).status = 404 ↔ route req.method req.path = .pathNotFound := by
  unfold serveHTTP
  cases hr : route req.method req.path with
  | pathNotFound => simp
  | methodNotAllowed => simp
  | create =>
    rcases db with _ | st
    · simp
    · rcases hb : req.body with _ | ⟨g, pub⟩ | r | _
      · simp
      · rcases hp : st.put (keyHashOf (akidOf e)) (sealRecord e g sk pub) with _ | st' <;>
          simp [hp]
      · simp
      · simp
  | fetch id =>
    by_cases ha : requireAuth tok req.authz
    · rcases db with _ | st
      · simp [ha]
      · rcases hf : fetchAccess st id with _ | ⟨g, sko, pub⟩ <;> simp [ha, hf]
    · simp [ha]
  | invalidateAccess id =>
    by_cases ha : requireAuth tok req.authz
    · rcases db with _ | st
      · simp [ha]
      · rcases hb : req.body with _ | ⟨g, pub⟩ | r | _ <;> simp [ha]
    · simp [ha]
  | deleteAccess id =>
    by_cases ha : requireAuth tok req.authz
    · rcases db with _ | st <;> simp [ha]
    · simp [ha]

theorem mk_data (s : String) : String.mk s.data = s := rfl

theorem splitPath_v1_access (rest : String) :
    splitPath ("/v1/access/" ++ rest) = "" :: "v1" :: "access" :: splitSlashAux rest.data [] := by
  unfold splitPath
  rw [String.data_append]
  simp [splitSlashAux]

theorem splitPath_v1_access_mis (rest : String) :
    splitPath ("/v1/access_/" ++ rest) = "" :: "v1" :: "access_" :: splitSlashAux rest.data [] := by
  unfold splitPath
  rw [String.data_append]
  simp [splitSlashAux]

theorem splitPath_id (id : String) (h1 : '/' ∉ id.data) :
    splitPath ("/v1/access/" ++ id) = ["", "v1", "access", id] := by
  rw [splitPath_v1_access, splitSlashAux_no_slash id.data h1]
  simp [mk_data]

theorem splitPath_mis_id (id : String) (h1 : '/' ∉ id.data) :
    splitPath ("/v1/access_/" ++ id) = ["", "v1", "access_", id] := by
  rw [splitPath_v1_access_mis, splitSlashAux_no_slash id.data h1]
  simp [mk_data]

theorem splitPath_id_seg (id : String) (seg : String) (h1 : '/' ∉ id.data)
    (hs : ("/" ++ seg).data = '/' :: seg.data) (hseg : '/' ∉ seg.data) :
    splitPath ("/v1/access/" ++ id ++ ("/" ++ seg)) = ["", "v1", "access", id, seg] := by
  rw [String.append_assoc, splitPath_v1_access, String.data_append, hs,
    splitSlashAux_first_slash id.data _ h1, splitSlashAux_no_slash seg.data hseg]
  simp [mk_data]

theorem splitPath_id_invalid (id : String) (h1 : '/' ∉ id.data) :
    splitPath ("/v1/access/" ++ id ++ "/invalid") = ["", "v1", "access", id, "invalid"] := by
  rw [show ("/invalid" : String) = "/" ++ "invalid" from rfl]
  exact splitPath_id_seg id "invalid" h1 rfl (by decide)

theorem splitPath_id_extra (id : String) (h1 : '/' ∉ id.data) :
    splitPath ("/v1/access/" ++ id ++ "/extra") = ["", "v1", "access", id, "extra"] := by
  rw [show ("/extra" : String) = "/" ++ "extra" from rfl]
  exact splitPath_id_seg id "extra" h1 rfl (by decide)

theorem splitPath_id_invalid_mis (id : String) (h1 : '/' ∉ id.data) :
    splitPath ("/v1/access/" ++ id ++ "/invalid_") = ["", "v1", "access", id, "invalid_"] := by
  rw [show ("/invalid_" : String) = "/" ++ "invalid_" from rfl]
  exact splitPath_id_seg id "invalid_" h1 rfl (by decide)

theorem splitPath_id_invalid_extra (id : String) (h1 : '/' ∉ id.data) :
    splitPath ("/v1/access/" ++ id ++ "/invalid/extra")
      = ["", "v1", "access", id, "invalid", "extra"] := by
  rw [String.append_assoc, splitPath_v1_access, String.data_append,
    show ("/invalid/extra" : String).data = '/' :: ("invalid/extra" : String).data from rfl,
    splitSlashAux_first_slash id.data _ h1]
  simp [mk_data, splitSlashAux]

theorem splitPath_mis_id_invalid (id : String) (h1 : '/' ∉ id.data) :
    splitPath ("/v1/access_/" ++ id ++ "/invalid") = ["", "v1", "access_", id, "invalid"] := by
  rw [String.append_assoc, splitPath_v1_access_mis, String.data_append,
    show ("/invalid" : String).data = '/' :: ("invalid" : String).data from rfl,
    splitSlashAux_first_slash id.data _ h1, splitSlashAux_no_slash ("invalid" : String).data (by decide)]
  simp [mk_data]

theorem routeSegments_id_DELETE (id : String) (h2 : id ≠ "") :
    routeSegments .DELETE ["", "v1", "access", id] = .deleteAccess id := by
  simp only [routeSegments]
  rw [if_pos (by simp [h2])]

theorem routeSegments_inv_PUT (id : String) (h2 : id ≠ "") :
    routeSegments .PUT ["", "v1", "access", id, "invalid"] = .invalidateAccess id := by
  simp only [routeSegments]
  rw [if_pos (by simp [h2])]

theorem routeSegments_inv_other (m : Method) (id : String) (h2 : id ≠ "") (hp : m ≠ .PUT) :
    routeSegments m ["", "v1", "access", id, "invalid"] = .methodNotAllowed := by
  simp only [routeSegments]
  rw [if_pos (by simp [h2])]

theorem routeSegments_access_POST : routeSegments .POST ["", "v1", "access"] = .create := rfl

theorem routeSegments_access_other (m : Method) (hp : m ≠ .POST) :
    routeSegments m ["", "v1", "access"] = .methodNotAllowed := by
  simp only [routeSegments]
  rw [if_pos (by simp)]

/-! route-level facts -/

theorem route_access_POST : route .POST "/v1/access" = .create := rfl

theorem route_access_other (m : Method) (hp : m ≠ .POST) :
    route m "/v1/access" = .methodNotAllowed := by
  unfold route
  exact routeSegments_access_other m hp

theorem route_id_GET (id : String) (h1 : '/' ∉ id.data) (h2 : id ≠ "") :
    route .GET ("/v1/access/" ++ id) = .fetch id := by
  unfold route
  rw [splitPath_id id h1]
  exact routeSegments_id_GET id h2

theorem route_id_DELETE (id : String) (h1 : '/' ∉ id.data) (h2 : id ≠ "") :
    route .DELETE ("/v1/access/" ++ id) = .deleteAccess id := by
  unfold route
  rw [splitPath_id id h1]
  exact routeSegments_id_DELETE id h2

theorem route_id_other (m : Method) (id : String) (h1 : '/' ∉ id.data) (h2 : id ≠ "")
    (hg : m ≠ .GET) (hd : m ≠ .DELETE) :
    route m ("/v1/access/" ++ id) = .methodNotAllowed := by
  unfold route
  rw [splitPath_id id h1]
  exact routeSegments_id_other m id h2 hg hd

theorem route_inv_PUT (id : String) (h1 : '/' ∉ id.data) (h2 : id ≠ "") :
    route .PUT ("/v1/access/" ++ id ++ "/invalid") = .invalidateAccess id := by
  unfold route
  rw [splitPath_id_invalid id h1]
  exact routeSegments_inv_PUT id h2

theorem route_inv_other (m : Method) (id : String) (h1 : '/' ∉ id.data) (h2 : id ≠ "")
    (hp : m ≠ .PUT) :
    route m ("/v1/access/" ++ id ++ "/invalid") = .methodNotAllowed := by
  unfold route
  rw [splitPath_id_invalid id h1]
  exact routeSegments_inv_other m id h2 hp

theorem route_trailing (m : Method) (p : String) : route m (p ++ "/") = .pathNotFound := by
  unfold route
  rw [splitPath_trailing]
  exact routeSegments_last_empty m _

theorem route_id_extra (m : Method) (id : String) (h1 : '/' ∉ id.data) :
    route m ("/v1/access/" ++ id ++ "/extra") = .pathNotFound := by
  unfold route
  rw [splitPath_id_extra id h1]
  simp only [routeSegments]
  rw [if_neg (fun hc => absurd hc.2.2.2.2 (by decide))]

theorem route_id_invalid_mis (m : Method) (id : String) (h1 : '/' ∉ id.data) :
    route m ("/v1/access/" ++ id ++ "/invalid_") = .pathNotFound := by
  unfold route
  rw [splitPath_id_invalid_mis id h1]
  simp only [routeSegments]
  rw [if_neg (fun hc => absurd hc.2.2.2.2 (by decide))]

theorem route_id_invalid_extra (m : Method) (id : String) (h1 : '/' ∉ id.data) :
    route m ("/v1/access/" ++ id ++ "/invalid/extra") = .pathNotFound := by
  unfold route
  rw [splitPath_id_invalid_extra id h1]
  rfl

theorem route_access_mis (m : Method) : route m "/v1/access_" = .pathNotFound := by
  unfold route
  show routeSegments m ["", "v1", "access_"] = .pathNotFound
  simp only [routeSegments]
  rw [if_neg (fun hc => absurd hc.2.2 (by decide))]

theorem route_mis_id (m : Method) (id : String) (h1 : '/' ∉ id.data) :
    route m ("/v1/access_/" ++ id) = .pathNotFound := by
  unfold route
  rw [splitPath_mis_id id h1]
  simp only [routeSegments]
  rw [if_neg (fun hc => absurd hc.2.2.1 (by decide))]

theorem route_mis_id_invalid (m : Method) (id : String) (h1 : '/' ∉ id.data) :
    route m ("/v1/access_/" ++ id ++ "/invalid") = .pathNotFound := by
  unfold route
  rw [splitPath_mis_id_invalid id h1]
  simp only [routeSegments]
  rw [if_neg (fun hc => absurd hc.2.2.1 (by decide))]

theorem serveHTTP_of_pathNotFound (ep tok : String) (db : Option Store) (req : Request)
    (e : Nat) (sk : String) (h : route req.method req.path = .pathNotFound) :
    serveHTTP ep tok db req e sk = ⟨404, .errBody, db⟩ := by
  unfold serveHTTP
  rw [h]

theorem serveHTTP_of_methodNotAllowed (ep tok : String) (db : Option Store) (req : Request)
    (e : Nat) (sk : String) (h : route req.method req.path = .methodNotAllowed) :
    serveHTTP ep tok db req e sk = ⟨405, .errBody, db⟩ := by
  unfold serveHTTP
  rw [h]

theorem serveHTTP_405_iff (ep tok : String) (db : Option Store) (req : Request)
    (e : Nat) (sk : String) :
    (serveHTTP ep tok db req e sk).status = 405 ↔
      route req.method req.path = .methodNotAllowed := by
  unfold serveHTTP
  cases hr : route req.method req.path with
  | pathNotFound => simp
  | methodNotAllowed => simp
  | create =>
    rcases db with _ | st
    · simp
    · rcases hb : req.body with _ | ⟨g, pub⟩ | r | _
      · simp
      · rcases hp : st.put (keyHashOf (akidOf e)) (sealRecord e g sk pub) with _ | st' <;>
          simp [hp]
      · simp
      · simp
  | fetch id =>
    by_cases ha : requireAuth tok req.authz
    · rcases db with _ | st
      · simp [ha]
      · rcases hf : fetchAccess st id with _ | ⟨g, sko, pub⟩ <;> simp [ha, hf]
    · simp [ha]
  | invalidateAccess id =>
    by_cases ha : requireAuth tok req.authz
    · rcases db with _ | st
      · simp [ha]
      · rcases hb : req.body with _ | ⟨g, pub⟩ | r | _ <;> simp [ha]
    · simp [ha]
  | deleteAccess id =>
    by_cases ha : requireAuth tok req.authz
    · rcases db with _ | st <;> simp [ha]
    · simp [ha]

theorem requireAuth_false (tok : String) (authz : Option String)
    (ha : authz ≠ some ("Bearer " ++ tok)) : requireAuth tok authz = false := by
  unfold requireAuth
  exact decide_eq_false ha

theorem serveHTTP_unauthorized_fetch (ep tok : String) (db : Option Store) (req : Request)
    (e : Nat) (sk : String) (id : String) (h : route req.method req.path = .fetch id)
    (ha : req.authz ≠ some ("Bearer " ++ tok)) :
    serveHTTP ep tok db req e sk = ⟨401, .errBody, db⟩ := by
  unfold serveHTTP
  rw [h, requireAuth_false tok req.authz ha]
  simp

theorem serveHTTP_unauthorized_invalidate (ep tok : String) (db : Option Store) (req : Request)
    (e : Nat) (sk : String) (id : String) (h : route req.method req.path = .invalidateAccess id)
    (ha : req.authz ≠ some ("Bearer " ++ tok)) :
    serveHTTP ep tok db req e sk = ⟨401, .errBody, db⟩ := by
  unfold serveHTTP
  rw [h, requireAuth_false tok req.authz ha]
  simp

theorem serveHTTP_unauthorized_delete (ep tok : String) (db : Option Store) (req : Request)
    (e : Nat) (sk : String) (id : String) (h : route req.method req.path = .deleteAccess id)
    (ha : req.authz ≠ some ("Bearer " ++ tok)) :
    serveHTTP ep tok db req e sk = ⟨401, .errBody, db⟩ := by
  unfold serveHTTP
  rw [h, requireAuth_false tok req.authz ha]
  simp

theorem serveHTTP_create_ignores_authz (ep tok : String) (db : Option Store) (req : Request)
    (e : Nat) (sk : String) (a : Option String) (h : route req.method req.path = .create) :
    serveHTTP ep tok db req e sk = serveHTTP ep tok db { req with authz := a } e sk := by
  unfold serveHTTP
  rw [h]

theorem serveHTTP_handled_not_404_405 (ep tok : String) (db : Option Store) (req : Request)
    (e : Nat) (sk : String) (rr : RouteResult) (h : route req.method req.path = rr)
    (h404 : rr ≠ .pathNotFound) (h405 : rr ≠ .methodNotAllowed) :
    (serveHTTP ep tok db req e sk).status ≠ 404 ∧ (serveHTTP ep tok db req e sk).status ≠ 405 := by
  constructor
  · intro hc
    rw [serveHTTP_404_iff] at hc
    rw [h] at hc
    exact h404 hc
  · intro hc
    rw [serveHTTP_405_iff] at hc
    rw [h] at hc
    exact h405 hc

theorem serveHTTP_create_ok (ep tok : String) (st : Store) (authz : Option String)
    (grant : String) (pub : Bool) (se : Nat) (sk : String)
    (hfresh : findEntry st.entries (keyHashOf (akidOf se)) = none) :
    serveHTTP ep tok (some st) ⟨.POST, "/v1/access", authz, .createReq grant pub⟩ se sk
      = ⟨200, .createResp (akidOf se) sk ep,
          some ⟨(keyHashOf (akidOf se), ⟨sealRecord se grant sk pub, none⟩) :: st.entries⟩⟩ := by
  unfold serveHTTP
  rw [route_access_POST]
  simp only []
  rw [put_ok st _ _ hfresh]

theorem fetchAccess_found (st : Store) (se : Nat) (grant sk : String) (pub : Bool)
    (hget : st.get (keyHashOf (akidOf se)) = .ok (some (sealRecord se grant sk pub))) :
    fetchAccess st (akidOf se) = .ok (grant, (if pub then none else some sk), pub) := by
  unfold fetchAccess
  simp only [hget, secretOf_akidOf, openRecord_sealRecord]
  rfl

theorem serveHTTP_fetch_ok (ep tok : String) (st : Store) (id : String) (g : String)
    (sko : Option String) (pub : Bool) (e2 : Nat) (s2 : String)
    (h1 : '/' ∉ id.data) (h2 : id ≠ "")
    (hf : fetchAccess st id = .ok (g, sko, pub)) :
    serveHTTP ep tok (some st) ⟨.GET, "/v1/access/" ++ id, some ("Bearer " ++ tok), .empty⟩ e2 s2
      = ⟨200, .fetchResp g sko pub, some st⟩ := by
  unfold serveHTTP
  rw [route_id_GET id h1 h2]
  simp only [show requireAuth tok (some ("Bearer " ++ tok)) = true from by
    simp [requireAuth], hf]
  simp

/-- C3: the three protected routes (`GET /v1/access/{id}`,
`PUT /v1/access/{id}/invalid`, `DELETE /v1/access/{id}`) answer 401 and leave
the database untouched whenever the `Authorization` header is absent or its
bearer token differs from the configured administrative token; the
registration route (`POST /v1/access`) is processed identically whatever the
`Authorization` header holds, so no bearer token is required there. -/
theorem claim_C3_bearer_token_policy (ep tok : String) (db : Option Store) (req : Request)
    (e : Nat) (sk : String) (id : String) :
    (req.authz ≠ some ("Bearer " ++ tok) →
      (route req.method req.path = .fetch id ∨
       route req.method req.path = .invalidateAccess id ∨
       route req.method req.path = .deleteAccess id) →
      serveHTTP ep tok db req e sk = ⟨401, .errBody, db⟩) ∧
    (route req.method req.path = .create →
      ∀ a : Option String,
        serveHTTP ep tok db req e sk = serveHTTP ep tok db { req with authz := a } e sk) := by
  constructor
  · intro ha hr
    rcases hr with h | h | h
    · exact serveHTTP_unauthorized_fetch ep tok db req e sk id h ha
    · exact serveHTTP_unauthorized_invalidate ep tok db req e sk id h ha
    · exact serveHTTP_unauthorized_delete ep tok db req e sk id h ha
  · intro h a
    exact serveHTTP_create_ignores_authz ep tok db req e sk a h

/-- Witness for C3: a token-less GET is refused with 401 and no state change,
and a create executes identically with and without a (wrong) bearer token. -/
theorem claim_C3_witness :
    serveHTTP "endpoint" "authToken" (some ⟨[]⟩) ⟨.GET, "/v1/access/someid", none, .empty⟩ 0 ""
      = ⟨401, .errBody, some ⟨[]⟩⟩ ∧
    serveHTTP "endpoint" "authToken" (some ⟨[]⟩)
        ⟨.POST, "/v1/access", some "Bearer wrong", .createReq "g" false⟩ 0 ""
      = serveHTTP "endpoint" "authToken" (some ⟨[]⟩)
        ⟨.POST, "/v1/access", none, .createReq "g" false⟩ 0 "" := by
  constructor
  · exact (claim_C3_bearer_token_policy "endpoint" "authToken" (some ⟨[]⟩)
      ⟨.GET, "/v1/access/someid", none, .empty⟩ 0 "" "someid").1 (by decide)
      (Or.inl (by decide))
  · exact (claim_C3_bearer_token_policy "endpoint" "authToken" (some ⟨[]⟩)
      ⟨.POST, "/v1/access", some "Bearer wrong", .createReq "g" false⟩ 0 "" "someid").2
      (by decide) none

/-- C8: the four routes are matched exactly.  For every id segment (no slash,
nonempty) and every method: the four exact method/path pairs are not answered
with 404/405; an unsupported method on any of the three path shapes yields
405; an extra sub-path suffix, a misspelled segment, or a trailing slash (on
any path whatsoever) yields 404. -/
theorem claim_C8_routing_exactness (ep tok : String) (db : Option Store)
    (authz : Option String) (body : Body) (e : Nat) (sk : String) (m : Method) (id : String)
    (h1 : '/' ∉ id.data) (h2 : id ≠ "") :
    ((serveHTTP ep tok db ⟨.POST, "/v1/access", authz, body⟩ e sk).status ≠ 404 ∧
     (serveHTTP ep tok db ⟨.POST, "/v1/access", authz, body⟩ e sk).status ≠ 405) ∧
    ((serveHTTP ep tok db ⟨.GET, "/v1/access/" ++ id, authz, body⟩ e sk).status ≠ 404 ∧
     (serveHTTP ep tok db ⟨.GET, "/v1/access/" ++ id, authz, body⟩ e sk).status ≠ 405) ∧
    ((serveHTTP ep tok db ⟨.PUT, "/v1/access/" ++ id ++ "/invalid", authz, body⟩ e sk).status ≠ 404 ∧
     (serveHTTP ep tok db ⟨.PUT, "/v1/access/" ++ id ++ "/invalid", authz, body⟩ e sk).status ≠ 405) ∧
    ((serveHTTP ep tok db ⟨.DELETE, "/v1/access/" ++ id, authz, body⟩ e sk).status ≠ 404 ∧
     (serveHTTP ep tok db ⟨.DELETE, "/v1/access/" ++ id, authz, body⟩ e sk).status ≠ 405) ∧
    (m ≠ .POST →
      (serveHTTP ep tok db ⟨m, "/v1/access", authz, body⟩ e sk).status = 405) ∧
    (m ≠ .GET → m ≠ .DELETE →
      (serveHTTP ep tok db ⟨m, "/v1/access/" ++ id, authz, body⟩ e sk).status = 405) ∧
    (m ≠ .PUT →
      (serveHTTP ep tok db ⟨m, "/v1/access/" ++ id ++ "/invalid", authz, body⟩ e sk).status = 405) ∧
    ((serveHTTP ep tok db ⟨m, "/v1/access/" ++ id ++ "/extra", authz, body⟩ e sk).status = 404) ∧
    ((serveHTTP ep tok db ⟨m, "/v1/access/" ++ id ++ "/invalid/extra", authz, body⟩ e sk).status = 404) ∧
    ((serveHTTP ep tok db ⟨m, "/v1/access_", authz, body⟩ e sk).status = 404) ∧
    ((serveHTTP ep tok db ⟨m, "/v1/access_/" ++ id, authz, body⟩ e sk).status = 404) ∧
    ((serveHTTP ep tok db ⟨m, "/v1/access_/" ++ id ++ "/invalid", authz, body⟩ e sk).status = 404) ∧
    ((serveHTTP ep tok db ⟨m, "/v1/access/" ++ id ++ "/invalid_", authz, body⟩ e sk).status = 404) ∧
    (∀ p : String, (serveHTTP ep tok db ⟨m, p ++ "/", authz, body⟩ e sk).status = 404) := by
  refine ⟨?_, ?_, ?_, ?_, ?_, ?_, ?_, ?_, ?_, ?_, ?_, ?_, ?_, ?_⟩
  · exact serveHTTP_handled_not_404_405 ep tok db _ e sk .create route_access_POST
      (fun hc => RouteResult.noConfusion hc) (fun hc => RouteResult.noConfusion hc)
  · exact serveHTTP_handled_not_404_405 ep tok db _ e sk (.fetch id) (route_id_GET id h1 h2)
      (fun hc => RouteResult.noConfusion hc) (fun hc => RouteResult.noConfusion hc)
  · exact serveHTTP_handled_not_404_405 ep tok db _ e sk (.invalidateAccess id)
      (route_inv_PUT id h1 h2)
      (fun hc => RouteResult.noConfusion hc) (fun hc => RouteResult.noConfusion hc)
  · exact serveHTTP_handled_not_404_405 ep tok db _ e sk (.deleteAccess id)
      (route_id_DELETE id h1 h2)
      (fun hc => RouteResult.noConfusion hc) (fun hc => RouteResult.noConfusion hc)
  · intro hp
    rw [serveHTTP_of_methodNotAllowed ep tok db _ e sk (route_access_other m hp)]
  · intro hg hd
    rw [serveHTTP_of_methodNotAllowed ep tok db _ e sk (route_id_other m id h1 h2 hg hd)]
  · intro hp
    rw [serveHTTP_of_methodNotAllowed ep tok db _ e sk (route_inv_other m id h1 h2 hp)]
  · rw [serveHTTP_of_pathNotFound ep tok db _ e sk (route_id_extra m id h1)]
  · rw [serveHTTP_of_pathNotFound ep tok db _ e sk (route_id_invalid_extra m id h1)]
  · rw [serveHTTP_of_pathNotFound ep tok db _ e sk (route_access_mis m)]
  · rw [serveHTTP_of_pathNotFound ep tok db _ e sk (route_mis_id m id h1)]
  · rw [serveHTTP_of_pathNotFound ep tok db _ e sk (route_mis_id_invalid m id h1)]
  · rw [serveHTTP_of_pathNotFound ep tok db _ e sk (route_id_invalid_mis m id h1)]
  · intro p
    rw [serveHTTP_of_pathNotFound ep tok db _ e sk (route_trailing m p)]

/-- Witness for C8: concrete scenarios of the routing-exactness test. -/
theorem claim_C8_witness :
    (serveHTTP "e" "t" none ⟨.POST, "/v1/access", none, .empty⟩ 0 "s").status ≠ 404 ∧
    (serveHTTP "e" "t" none ⟨.PATCH, "/v1/access", none, .empty⟩ 0 "s").status = 405 ∧
    (serveHTTP "e" "t" none ⟨.PATCH, "/v1/access/" ++ "someid", none, .empty⟩ 0 "s").status = 405 ∧
    (serveHTTP "e" "t" none ⟨.PATCH, "/v1/access/" ++ "someid" ++ "/extra", none,
      .empty⟩ 0 "s").status = 404 ∧
    (serveHTTP "e" "t" none ⟨.PATCH, "/v1/access/someid" ++ "/", none, .empty⟩ 0 "s").status
      = 404 := by
  have h := claim_C8_routing_exactness "e" "t" none none .empty 0 "s" .PATCH "someid"
    (by decide) (by decide)
  exact ⟨h.1.1, h.2.2.2.2.1 (by decide), h.2.2.2.2.2.1 (by decide) (by decide),
    h.2.2.2.2.2.2.2.1, h.2.2.2.2.2.2.2.2.2.2.2.2.2 "/v1/access/someid"⟩

/-- C9: registering a grant (with any `Authorization` header) and then
fetching the returned access-key id with the administrative token yields the
original grant and the record's public flag; the `secret_key` field is
present in the fetch response exactly when the record is not public. -/
theorem claim_C9_public_visibility (ep tok : String) (st : Store) (authz : Option String)
    (grant : String) (pub : Bool) (se : Nat) (sk : String) (e2 : Nat) (s2 : String)
    (hfresh : findEntry st.entries (keyHashOf (akidOf se)) = none) :
    serveHTTP ep tok (some st) ⟨.POST, "/v1/access", authz, .createReq grant pub⟩ se sk
      = ⟨200, .createResp (akidOf se) sk ep,
          some ⟨(keyHashOf (akidOf se), ⟨sealRecord se grant sk pub, none⟩) :: st.entries⟩⟩ ∧
    serveHTTP ep tok
        (some ⟨(keyHashOf (akidOf se), ⟨sealRecord se grant sk pub, none⟩) :: st.entries⟩)
        ⟨.GET, "/v1/access/" ++ akidOf se, some ("Bearer " ++ tok), .empty⟩ e2 s2
      = ⟨200, .fetchResp grant (if pub then none else some sk) pub,
          some ⟨(keyHashOf (akidOf se), ⟨sealRecord se grant sk pub, none⟩) :: st.entries⟩⟩ := by
  constructor
  · exact serveHTTP_create_ok ep tok st authz grant pub se sk hfresh
  · exact serveHTTP_fetch_ok ep tok _ (akidOf se) grant (if pub then none else some sk) pub e2 s2
      (slash_not_mem_akidOf se) (akidOf_ne_empty se)
      (fetchAccess_found _ se grant sk pub
        (get_after_put_self st (keyHashOf (akidOf se)) (sealRecord se grant sk pub)))

/-- Witness for C9: a concrete public create-then-fetch round trip. -/
theorem claim_C9_witness :
    serveHTTP "endpoint" "authToken" (some ⟨[]⟩)
        ⟨.POST, "/v1/access", none, .createReq "g" true⟩ 2 "SK"
      = ⟨200, .createResp (akidOf 2) "SK" "endpoint",
          some ⟨[(keyHashOf (akidOf 2), ⟨sealRecord 2 "g" "SK" true, none⟩)]⟩⟩ ∧
    serveHTTP "endpoint" "authToken"
        (some ⟨[(keyHashOf (akidOf 2), ⟨sealRecord 2 "g" "SK" true, none⟩)]⟩)
        ⟨.GET, "/v1/access/" ++ akidOf 2, some ("Bearer " ++ "authToken"), .empty⟩ 9 "zz"
      = ⟨200, .fetchResp "g" none true,
          some ⟨[(keyHashOf (akidOf 2), ⟨sealRecord 2 "g" "SK" true, none⟩)]⟩⟩ :=
  claim_C9_public_visibility "endpoint" "authToken" ⟨[]⟩ none "g" true 2 "SK" 9 "zz" (by decide)

/-- C10: routing, method dispatch and the bearer-token check are decided
before the database is consulted: a resource layer constructed with a nil
database still answers the four exact routes (with the correct bearer token)
with a status that is neither 404 nor 405. -/
theorem claim_C10_dispatch_before_database (ep tok : String) (id : String) (e : Nat)
    (sk : String) (body : Body) (h1 : '/' ∉ id.data) (h2 : id ≠ "") :
    ((serveHTTP ep tok none ⟨.POST, "/v1/access", some ("Bearer " ++ tok), body⟩ e sk).status ≠ 404 ∧
     (serveHTTP ep tok none ⟨.POST, "/v1/access", some ("Bearer " ++ tok), body⟩ e sk).status ≠ 405) ∧
    ((serveHTTP ep tok none ⟨.GET, "/v1/access/" ++ id, some ("Bearer " ++ tok), body⟩ e sk).status ≠ 404 ∧
     (serveHTTP ep tok none ⟨.GET, "/v1/access/" ++ id, some ("Bearer " ++ tok), body⟩ e sk).status ≠ 405) ∧
    ((serveHTTP ep tok none ⟨.PUT, "/v1/access/" ++ id ++ "/invalid", some ("Bearer " ++ tok), body⟩ e sk).status ≠ 404 ∧
     (serveHTTP ep tok none ⟨.PUT, "/v1/access/" ++ id ++ "/invalid", some ("Bearer " ++ tok), body⟩ e sk).status ≠ 405) ∧
    ((serveHTTP ep tok none ⟨.DELETE, "/v1/access/" ++ id, some ("Bearer " ++ tok), body⟩ e sk).status ≠ 404 ∧
     (serveHTTP ep tok none ⟨.DELETE, "/v1/access/" ++ id, some ("Bearer " ++ tok), body⟩ e sk).status ≠ 405) := by
  refine ⟨?_, ?_, ?_, ?_⟩
  · exact serveHTTP_handled_not_404_405 ep tok none _ e sk .create route_access_POST
      (fun hc => RouteResult.noConfusion hc) (fun hc => RouteResult.noConfusion hc)
  · exact serveHTTP_handled_not_404_405 ep tok none _ e sk (.fetch id) (route_id_GET id h1 h2)
      (fun hc => RouteResult.noConfusion hc) (fun hc => RouteResult.noConfusion hc)
  · exact serveHTTP_handled_not_404_405 ep tok none _ e sk (.invalidateAccess id)
      (route_inv_PUT id h1 h2)
      (fun hc => RouteResult.noConfusion hc) (fun hc => RouteResult.noConfusion hc)
  · exact serveHTTP_handled_not_404_405 ep tok none _ e sk (.deleteAccess id)
      (route_id_DELETE id h1 h2)
      (fun hc => RouteResult.noConfusion hc) (fun hc => RouteResult.noConfusion hc)

/-- Witness for C10: the nil-database resource layer at the concrete test
inputs. -/
theorem claim_C10_witness :
    (serveHTTP "endpoint" "authToken" none
      ⟨.GET, "/v1/access/" ++ "someid", some ("Bearer " ++ "authToken"), .empty⟩ 0 "s").status ≠ 404 ∧
    (serveHTTP "endpoint" "authToken" none
      ⟨.PUT, "/v1/access/" ++ "someid" ++ "/invalid", some ("Bearer " ++ "authToken"), .empty⟩ 0 "s").status ≠ 405 := by
  have h := claim_C10_dispatch_before_database "endpoint" "authToken" "someid" 0 "s" .empty
    (by decide) (by decide)
  exact ⟨h.2.1.1, h.2.2.1.2⟩

/-- The authorized HTTP delete answers 200 with an empty object on any store,
so deleting an absent or already-deleted key is still a success. -/
theorem serveHTTP_delete_ok (ep tok : String) (st : Store) (id : String) (e : Nat)
    (sk : String) (body : Body) (h1 : '/' ∉ id.data) (h2 : id ≠ "") :
    serveHTTP ep tok (some st) ⟨.DELETE, "/v1/access/" ++ id, some ("Bearer " ++ tok), body⟩ e sk
      = ⟨200, .emptyObj, some (st.delete (keyHashOf id))⟩ := by
  unfold serveHTTP
  rw [route_id_DELETE id h1 h2]
  simp [requireAuth]

/-- C7: `Delete` succeeds whether or not the key exists: the store-level
delete is total, deleting an absent key is a no-op, after a delete the key is
gone, a repeated delete changes nothing (idempotence), and the authorized
HTTP delete answers 200 on every store state, so repeating it any number of
times keeps returning success. -/
theorem claim_C7_delete_idempotent (st : Store) (kh : KeyHash) (ep tok id : String)
    (e : Nat) (sk : String) (body : Body) (h1 : '/' ∉ id.data) (h2 : id ≠ "") :
    (findEntry st.entries kh = none → st.delete kh = st) ∧
    findEntry (st.delete kh).entries kh = none ∧
    (st.delete kh).delete kh = st.delete kh ∧
    (∀ st' : Store,
      (serveHTTP ep tok (some st') ⟨.DELETE, "/v1/access/" ++ id, some ("Bearer " ++ tok), body⟩ e sk).status
        = 200) := by
  exact ⟨fun h => delete_absent st kh h, findEntry_delete st kh, delete_delete st kh,
    fun st' => by rw [serveHTTP_delete_ok ep tok st' id e sk body h1 h2]⟩

/-- Witness for C7 at a concrete store: deletes of an absent key and repeated
deletes succeed, also through the HTTP layer. -/
theorem claim_C7_witness :
    (Store.mk []).delete [3] = ⟨[]⟩ ∧
    ((Store.mk [([3], ⟨⟨"sat", [], [], [], false⟩, none⟩)]).delete [3]).delete [3]
      = (Store.mk [([3], ⟨⟨"sat", [], [], [], false⟩, none⟩)]).delete [3] ∧
    (serveHTTP "e" "t" (some ⟨[]⟩)
      ⟨.DELETE, "/v1/access/" ++ "someid", some ("Bearer " ++ "t"), .empty⟩ 0 "s").status = 200 := by
  have h1 := claim_C7_delete_idempotent ⟨[]⟩ [3] "e" "t" "someid" 0 "s" .empty
    (by decide) (by decide)
  have h2 := claim_C7_delete_idempotent ⟨[([3], ⟨⟨"sat", [], [], [], false⟩, none⟩)]⟩ [3]
    "e" "t" "someid" 0 "s" .empty (by decide) (by decide)
  exact ⟨h1.1 (by decide), h2.2.2.1, h1.2.2.2 ⟨[]⟩⟩

end Stargate
